import Mathlib

/-!
Verification of the clawproof proof-receipt service against its
natural-language specification.  The definitions below are shallow
embeddings of the Rust sources: `src/crypto.rs`, `src/receipt.rs`,
`src/models.rs`, `src/input.rs`, `src/prover.rs`,
`src/handlers/prove.rs` and `src/handlers/upload.rs`.  Machine integers
are modelled as `Nat`/`Int` with explicit reductions modulo powers of
two where the Rust code relies on fixed-width arithmetic; fallible code
returns `Option`/`Except`; external collaborators (the ONNX runtime,
the SNARK library, the network) are passed in as explicit outcome
parameters.
-/

namespace Clawproof

/-! ## Keccak-256 (the `sha3` crate's `Keccak256`, used by `crypto.rs`)

The hasher is embedded concretely: 64-bit lanes are `Nat`s reduced
modulo `2 ^ 64`, the state is the standard 5×5 lane matrix stored as a
flat list (lane (x, y) at index `x + 5 * y`), and the sponge uses rate
136 with the original Keccak `0x01 … 0x80` multi-rate padding. -/

def U64MOD : Nat := 18446744073709551616

def rotl64 (x n : Nat) : Nat :=
  ((x <<< n) ||| (x >>> (64 - n))) % U64MOD

def not64 (x : Nat) : Nat :=
  Nat.xor x (U64MOD - 1)

/-- One step of the `rc(t)` LFSR of FIPS 202: shift left and fold the
feedback polynomial `x^8 + x^6 + x^5 + x^4 + 1` back in when the ninth
bit is set. -/
def lfsrStep (r : Nat) : Nat :=
  let r2 := r <<< 1
  if 256 ≤ r2 then Nat.xor r2 0x171 else r2

def lfsrIter : Nat → Nat
  | 0 => 1
  | t + 1 => lfsrStep (lfsrIter t)

def rcBit (t : Nat) : Nat :=
  lfsrIter (t % 255) % 2

/-- Round constant of round `i`: bit `2 ^ j - 1` equals
`rc(j + 7 i)` for `j = 0 … 6`. -/
def roundConst (i : Nat) : Nat :=
  (List.range 7).foldl (fun acc j => acc + rcBit (j + 7 * i) * 2 ^ (2 ^ j - 1)) 0

/-- The 24 Keccak-f[1600] round constants. -/
def keccakRC : List Nat :=
  (List.range 24).map roundConst

/-- The ρ/π lane walk: start at lane (1, 0) and step
`(x, y) ↦ (y, (2 x + 3 y) mod 5)`. -/
def rhoWalk : Nat → Nat × Nat
  | 0 => (1, 0)
  | t + 1 => ((rhoWalk t).2, (2 * (rhoWalk t).1 + 3 * (rhoWalk t).2) % 5)

/-- Rotation offset of the lane at flat index `i = x + 5 y`: step `t` of
the walk assigns `(t+1)(t+2)/2 mod 64`; lane (0, 0) keeps offset 0. -/
def rhoOffsetAt (i : Nat) : Nat :=
  (((List.range 24).filter
      (fun t => (rhoWalk t).1 + 5 * (rhoWalk t).2 = i)).map
    (fun t => (t + 1) * (t + 2) / 2 % 64)).headD 0

/-- Rotation offsets of the ρ step, indexed by `x + 5 * y`. -/
def rhoOffsets : List Nat :=
  (List.range 25).map rhoOffsetAt

def lane (st : List Nat) (x y : Nat) : Nat :=
  st.getD (x + 5 * y) 0

def theta (st : List Nat) : List Nat :=
  let c : Nat → Nat := fun x =>
    Nat.xor (lane st x 0)
      (Nat.xor (lane st x 1)
        (Nat.xor (lane st x 2) (Nat.xor (lane st x 3) (lane st x 4))))
  (List.range 25).map (fun i =>
    let x := i % 5
    Nat.xor (st.getD i 0) (Nat.xor (c ((x + 4) % 5)) (rotl64 (c ((x + 1) % 5)) 1)))

def rhoPi (st : List Nat) : List Nat :=
  (List.range 25).map (fun i =>
    let x := i % 5
    let y := i / 5
    let sx := (x + 3 * y) % 5
    let sy := x
    rotl64 (lane st sx sy) (rhoOffsets.getD (sx + 5 * sy) 0))

def chiStep (st : List Nat) : List Nat :=
  (List.range 25).map (fun i =>
    let x := i % 5
    let y := i / 5
    Nat.xor (lane st x y)
      (Nat.land (not64 (lane st ((x + 1) % 5) y)) (lane st ((x + 2) % 5) y)))

def iotaStep (st : List Nat) (rc : Nat) : List Nat :=
  st.set 0 (Nat.xor (st.getD 0 0) rc)

def keccakRound (st : List Nat) (rc : Nat) : List Nat :=
  iotaStep (chiStep (rhoPi (theta st))) rc

def keccakF (st : List Nat) : List Nat :=
  keccakRC.foldl keccakRound st

/-- XOR one message byte into the sponge state: byte position `j` of a
rate block lands in bits `8 * (j % 8)` of lane `j / 8`. -/
def xorByteIntoState (st : List Nat) (j b : Nat) : List Nat :=
  st.set (j / 8) (Nat.xor (st.getD (j / 8) 0) (b <<< (8 * (j % 8))))

/-- Rust's `Iterator::enumerate`, starting the indices at `i`. -/
def enumFromN {α : Type} (i : Nat) : List α → List (Nat × α)
  | [] => []
  | x :: xs => (i, x) :: enumFromN (i + 1) xs

def absorbBlock (st : List Nat) (block : List Nat) : List Nat :=
  keccakF ((enumFromN 0 block).foldl (fun s p => xorByteIntoState s p.1 p.2) st)

/-- Keccak multi-rate padding `0x01 … 0x80` to a multiple of the rate
(136 bytes for Keccak-256). -/
def pad101 (msg : List Nat) : List Nat :=
  let padLen := 136 - msg.length % 136
  if padLen = 1 then msg ++ [0x81]
  else msg ++ 0x01 :: List.replicate (padLen - 2) 0 ++ [0x80]

def absorbAll (st : List Nat) : List Nat → List Nat
  | [] => st
  | x :: rest => absorbAll (absorbBlock st ((x :: rest).take 136)) ((x :: rest).drop 136)
termination_by l => l.length
decreasing_by simp; omega

/-- The 32-byte Keccak-256 digest: absorb the padded message into the
all-zero state and read the first 32 bytes of the final state. -/
def keccak256Bytes (msg : List Nat) : List Nat :=
  let final := absorbAll (List.replicate 25 0) (pad101 msg)
  (List.range 32).map (fun j => ((final.getD (j / 8) 0) >>> (8 * (j % 8))) % 256)

def hexDigit (n : Nat) : Char :=
  if n = 0 then '0' else if n = 1 then '1' else if n = 2 then '2'
  else if n = 3 then '3' else if n = 4 then '4' else if n = 5 then '5'
  else if n = 6 then '6' else if n = 7 then '7' else if n = 8 then '8'
  else if n = 9 then '9' else if n = 10 then 'a' else if n = 11 then 'b'
  else if n = 12 then 'c' else if n = 13 then 'd' else if n = 14 then 'e'
  else 'f'

/-- Lowercase hex rendering of a byte string (the `hex::encode` call in
`crypto.rs`): two hex characters per byte, high nibble first. -/
def bytesToHex : List Nat → List Char
  | [] => []
  | b :: rest => hexDigit (b / 16) :: hexDigit (b % 16) :: bytesToHex rest

/-! ## `src/crypto.rs` -/

/-- `crypto::keccak256`: `format!("0x{}", hex::encode(Keccak256(data)))`. -/
def keccak256 (data : List Nat) : String :=
  String.mk ('0' :: 'x' :: bytesToHex (keccak256Bytes data))

/-- The little-endian byte encoding of an `i32` (`v.to_le_bytes()` in
`crypto::hash_tensor`); two's complement is captured by reducing the
integer modulo `2 ^ 32`. -/
def i32ToLeBytes (v : Int) : List Nat :=
  let n := (v.emod 4294967296).toNat
  [n % 256, n / 256 % 256, n / 65536 % 256, n / 16777216 % 256]

/-- `crypto::hash_tensor` (the spec's `hash_int_tensor`): concatenate the
signed 32-bit little-endian encodings of the elements and hash. -/
def hash_tensor (data : List Int) : String :=
  keccak256 (data.flatMap i32ToLeBytes)

/-! ## `src/receipt.rs` -/

inductive ReceiptStatus
  | proving
  | verified
  | failed
deriving DecidableEq, Repr

/-- `ReceiptStatus::as_str`. -/
def ReceiptStatus.as_str : ReceiptStatus → String
  | .proving => "proving"
  | .verified => "verified"
  | .failed => "failed"

/-- `ReceiptStatus::from_str`: `"verified"` and `"failed"` map to their
statuses; every other string falls through to `Proving`. -/
def ReceiptStatus.from_str (s : String) : ReceiptStatus :=
  if s = "verified" then .verified
  else if s = "failed" then .failed
  else .proving

/-- The `Receipt` record of `receipt.rs`, with timestamps as integers
(milliseconds of `DateTime<Utc>`).  The `output.confidence` field is an
`f64` in the source and is omitted from the embedding; the remaining
inference output fields are kept. -/
structure ReceiptM where
  id : String
  model_id : String
  model_name : String
  status : ReceiptStatus
  created_at : Int
  completed_at : Option Int
  model_hash : String
  input_hash : String
  output_hash : String
  raw_output : List Int
  predicted_class : Nat
  label : String
  proof_hash : Option String
  proof_size : Option Nat
  prove_time_ms : Option Nat
  verify_time_ms : Option Nat
  error : Option String
deriving DecidableEq, Repr

/-- The two tiers of `ReceiptStore`: the hot `DashMap` cache and the
durable SQLite table, both keyed by receipt id. -/
structure ReceiptStoreM where
  cache : List (String × ReceiptM)
  db : List (String × ReceiptM)
deriving DecidableEq, Repr

/-- `ReceiptStore::cleanup_cache`: compute `cutoff = now - max_age` and
retain exactly the hot entries with `created_at > cutoff`; the durable
tier is not touched. -/
def cleanup_cache (now max_age : Int) (store : ReceiptStoreM) : ReceiptStoreM :=
  { store with cache := store.cache.filter (fun p => now - max_age < p.2.created_at) }

/-! ## Prediction (`src/handlers/prove.rs`, lines 303-314)

The handler computes `raw_output.iter().enumerate().max_by(|a, b|
a.1.cmp(b.1)).unwrap_or((0, &0))`.  Rust's `Iterator::max_by` folds the
iterator keeping the accumulator only when it compares strictly greater
than the new element, so among equal maxima the last one wins. -/

/-- One `max_by` fold step: the accumulator `q` survives only when the
new element `p` is strictly smaller (`Ordering::Greater` branch). -/
def maxByStep (q p : Nat × Int) : Nat × Int :=
  if p.2 < q.2 then q else p

def maxByGo (q : Nat × Int) : List (Nat × Int) → Nat × Int
  | [] => q
  | p :: l => maxByGo (maxByStep q p) l

/-- Rust's `max_by` over a list of `(index, value)` pairs, comparing on
the value component. -/
def iterMaxBy : List (Nat × Int) → Option (Nat × Int)
  | [] => none
  | p :: l => some (maxByGo p l)

/-- `pred_idx` of `run_single_prove`:
`enumerate().max_by(cmp on value).unwrap_or((0, &0)).0`. -/
def predictedClass (raw : List Int) : Nat :=
  ((iterMaxBy (enumFromN 0 raw)).getD (0, 0)).1

/-- `label` of `run_single_prove`: `labels.get(pred_idx)` with the
`class_{i}` fallback. -/
def predictedLabel (labels : List String) (pred : Nat) : String :=
  match labels.get? pred with
  | some l => l
  | none => "class_" ++ toString pred

/-! ## `src/models.rs` -/

inductive InputType
  | text
  | structuredFields
  | raw
deriving DecidableEq, Repr

structure FieldSchema where
  name : String
  description : String
  min : Nat
  max : Nat
deriving DecidableEq, Repr

/-- `ModelDescriptor`.  `model_hash` is the cached artifact digest set by
the upload handler (`upload.rs` line 205) and read back by the prove
pipeline (`prove.rs` line 326). -/
structure ModelDescriptor where
  id : String
  name : String
  description : String
  input_type : InputType
  input_dim : Nat
  input_shape : List Nat
  labels : List String
  trace_length : Nat
  fields : Option (List FieldSchema)
  model_hash : Option String
deriving DecidableEq, Repr

/-- The `ModelToml` record as it stands after TOML deserialization
(serde defaults already applied: empty `input_shape`, empty `labels`,
`trace_length = 1 <<< 14`, empty `fields` when absent). -/
structure ModelToml where
  id : String
  name : String
  description : String
  input_type : String
  input_dim : Nat
  input_shape : List Nat
  labels : List String
  trace_length : Nat
  fields : List FieldSchema
deriving DecidableEq, Repr

/-- The `match toml_model.input_type.as_str()` of
`ModelRegistry::load_from_toml`: only the three recognized tags parse. -/
def parseInputType (s : String) : Option InputType :=
  if s = "text" then some .text
  else if s = "structured_fields" then some .structuredFields
  else if s = "raw" then some .raw
  else none

/-- `ModelRegistry::load_from_toml` on an already-deserialized manifest
(the file-read and TOML-parse failures of the first two lines are
external I/O and are not modelled; every later step is embedded).  The
source performs no validation beyond the `input_type` tag: `input_dim`,
`labels`, `trace_length` and the field bounds are taken as they are. -/
def load_from_toml (t : ModelToml) : Option ModelDescriptor :=
  match parseInputType t.input_type with
  | none => none
  | some it =>
    let input_shape := if t.input_shape.isEmpty then [1, t.input_dim] else t.input_shape
    let fields := if t.fields.isEmpty then none else some t.fields
    some
      { id := t.id
        name := t.name
        description := t.description
        input_type := it
        input_dim := t.input_dim
        input_shape := input_shape
        labels := t.labels
        trace_length := t.trace_length
        fields := fields
        model_hash := none }

/-! ## `src/input.rs` and the input-building step of `run_single_prove`

Request field maps and vocabularies are association lists; lookup is
the first binding of the key, matching `HashMap::get` on maps whose
keys are unique. -/

def alistGet {α : Type} (l : List (String × α)) (k : String) : Option α :=
  (l.find? (fun p => p.1 = k)).map Prod.snd

/-- The tokenizer regex `\w+|[^\w\s]`: maximal runs of word characters,
or single non-word non-space characters, lowercased.  `\w` is modelled
as ASCII alphanumeric or underscore. -/
def isWordChar (c : Char) : Bool :=
  c.isAlphanum || c = '_'

def tokenizeGo : List Char → List Char → List String
  | acc, [] => if acc.isEmpty then [] else [String.mk acc.reverse]
  | acc, c :: rest =>
    if isWordChar c then tokenizeGo (c.toLower :: acc) rest
    else
      let flushed := if acc.isEmpty then [] else [String.mk acc.reverse]
      if c = ' ' || c = '\t' || c = '\n' || c = '\r' then
        flushed ++ tokenizeGo [] rest
      else
        flushed ++ (String.mk [c.toLower] :: tokenizeGo [] rest)

def tokenize (text : String) : List String :=
  tokenizeGo [] text.data

/-- `input::build_tfidf_vector`: accumulate the scaled IDF of each known
token at its vocabulary index. -/
def build_tfidf_vector (text : String) (vocab : List (String × (Nat × Int)))
    (dim : Nat) : List Int :=
  (tokenize text).foldl
    (fun vec token =>
      match alistGet vocab token with
      | some (index, idf) =>
        if index < dim then vec.set index (vec.getD index 0 + idf) else vec
      | none => vec)
    (List.replicate dim 0)

/-- `input::build_onehot_vector`: for each declared field with a
supplied value, set position `vocab["{field}_{value}"]` to 1. -/
def build_onehot_vector (fields : List (String × Nat)) (field_names : List String)
    (vocab : List (String × Nat)) (dim : Nat) : List Int :=
  field_names.foldl
    (fun vec field_name =>
      match alistGet fields field_name with
      | some value =>
        match alistGet vocab (field_name ++ "_" ++ toString value) with
        | some index => if index < dim then vec.set index 1 else vec
        | none => vec
      | none => vec)
    (List.replicate dim 0)

/-- Modelled from the spec: `build_token_index_vector` is referenced by
`prove.rs` but its definition is missing from the `input.rs` snapshot;
§4.4 says the token-index encoder writes 1 at each known token's
index. -/
def build_token_index_vector (text : String) (vocab : List (String × Nat))
    (dim : Nat) : List Int :=
  (tokenize text).foldl
    (fun vec token =>
      match alistGet vocab token with
      | some index => if index < dim then vec.set index 1 else vec
      | none => vec)
    (List.replicate dim 0)

/-! ## `src/handlers/prove.rs` — `run_single_prove` -/

structure ProveInput where
  text : Option String
  fields : Option (List (String × Nat))
  raw : Option (List Int)
deriving DecidableEq, Repr

inductive VocabData
  | tfidf (v : List (String × (Nat × Int)))
  | onehot (v : List (String × Nat))
  | tokenIndex (v : List (String × Nat))
deriving DecidableEq, Repr

/-- The handler's error responses, tagged with the HTTP status class the
boundary maps them to and the `error` message of the JSON body. -/
inductive ProveErr
  | badRequest (msg : String)
  | notFound (msg : String)
  | unavailable (msg : String)
  | internal (msg : String)
deriving DecidableEq, Repr

/-- The fields of `AppState` that `run_single_prove` reads. -/
structure ServerState where
  registry : List (String × ModelDescriptor)
  preprocessing : List String
  vocabs : List (String × VocabData)
deriving Repr

/-- `url.starts_with("https://")` of the webhook check, as a character
prefix test. -/
def startsWithHttps (url : String) : Bool :=
  List.isPrefixOf "https://".data url.data

/-- The structured-fields range check of `run_single_prove` (lines
164-181): walk the schemas in order and fail on the first supplied
value with `value > schema.max`.  The schema's `min` is not consulted. -/
def structuredFieldError (schemas : List FieldSchema)
    (fields : List (String × Nat)) : Option String :=
  match schemas with
  | [] => none
  | s :: rest =>
    match alistGet fields s.name with
    | some value =>
      if s.max < value then
        some ("Field '" ++ s.name ++ "' value " ++ toString value ++
          " exceeds max " ++ toString s.max)
      else structuredFieldError rest fields
    | none => structuredFieldError rest fields

/-- The `match &model_desc.input_type` of `run_single_prove`: build the
input vector, or fail with the branch's error. -/
def buildInputVector (st : ServerState) (model_id : String)
    (desc : ModelDescriptor) (input : ProveInput) : Except ProveErr (List Int) :=
  match desc.input_type with
  | .text =>
    match input.text with
    | none => .error (.badRequest "Text input required for this model")
    | some text =>
      if 10000 < text.utf8ByteSize then
        .error (.badRequest "Text input exceeds maximum length of 10,000 characters")
      else
        match alistGet st.vocabs model_id with
        | none => .error (.internal "Vocabulary not loaded")
        | some (.tfidf v) => .ok (build_tfidf_vector text v desc.input_dim)
        | some (.tokenIndex v) => .ok (build_token_index_vector text v desc.input_dim)
        | some _ => .error (.internal "Wrong vocabulary type for model")
  | .structuredFields =>
    match input.fields with
    | none => .error (.badRequest "Field inputs required for this model")
    | some fields =>
      let schemaErr :=
        match desc.fields with
        | some schemas => structuredFieldError schemas fields
        | none => none
      match schemaErr with
      | some msg => .error (.badRequest msg)
      | none =>
        match alistGet st.vocabs model_id with
        | none => .error (.internal "Vocabulary not loaded")
        | some (.onehot v) =>
          let field_names := (desc.fields.getD []).map FieldSchema.name
          .ok (build_onehot_vector fields field_names v desc.input_dim)
        | some _ => .error (.internal "Wrong vocabulary type for model")
  | .raw =>
    match input.raw with
    | none => .error (.badRequest "Raw input vector required for this model")
    | some raw =>
      if raw.length ≠ desc.input_dim then
        .error (.badRequest ("Raw input length " ++ toString raw.length ++
          " does not match expected " ++ toString desc.input_dim))
      else .ok raw

/-- The outcome of the external ONNX forward pass run under
`spawn_blocking` + `catch_unwind`. -/
inductive InferenceResult
  | ok (out : List Int)
  | panicked
  | failed (msg : String)
  | joinError
deriving DecidableEq, Repr

/-- `run_single_prove` (`prove.rs` lines 61-397).  External effects are
parameters: `inference` is the ONNX forward pass, `artifact` the bytes
of `network.onnx` (for the `compute_model_commitment` fallback; `none`
models a read failure), `receipt_id` the fresh UUID and `now` the
creation clock.  On success the handler returns the response data and
the single receipt it inserted into the store (status `Proving`); on
error no receipt is created.  The `f64` confidence is omitted from the
receipt model. -/
def run_single_prove (st : ServerState) (model_id : String) (input : ProveInput)
    (webhook_url : Option String) (inference : List Int → InferenceResult)
    (artifact : Option (List Nat)) (receipt_id : String) (now : Int) :
    Except ProveErr ReceiptM :=
  -- Validate webhook URL if provided (lines 67-78) — before anything else.
  if (match webhook_url with
      | some url => !(startsWithHttps url)
      | none => false) then
    .error (.badRequest "webhook_url must use HTTPS")
  else
    -- Resolve descriptor (lines 80-91).
    match alistGet st.registry model_id with
    | none => .error (.notFound ("Model not found: " ++ model_id))
    | some model_desc =>
      -- Gate on preprocessing (lines 93-104).
      if ¬ st.preprocessing.contains model_id then
        .error (.unavailable ("Model '" ++ model_id ++ "' is still loading. Try again shortly."))
      else
        -- Build input vector (lines 106-241).
        match buildInputVector st model_id model_desc input with
        | .error e => .error e
        | .ok input_vector =>
          -- Tensor creation (lines 243-253); modelled from the collaborator
          -- contract: `Tensor::new` succeeds iff the data length matches
          -- the declared shape's element count.
          if input_vector.length ≠ model_desc.input_shape.foldl (· * ·) 1 then
            .error (.badRequest "Failed to create input tensor")
          else
            -- Inference with panic isolation (lines 255-301).
            match inference input_vector with
            | .joinError => .error (.internal "Inference task failed")
            | .panicked => .error (.internal "Inference crashed")
            | .failed msg => .error (.internal ("Inference failed: " ++ msg))
            | .ok raw_output =>
              -- Hashes (lines 323-339).
              match (match model_desc.model_hash with
                     | some cached => some cached
                     | none =>
                       match artifact with
                       | some bytes => some (keccak256 bytes)
                       | none => none) with
              | none => .error (.internal "Failed to compute model hash")
              | some model_hash =>
                -- Prediction (lines 303-321) and the receipt created with
                -- status Proving (lines 341-368).
                .ok
                  { id := receipt_id
                    model_id := model_id
                    model_name := model_desc.name
                    status := .proving
                    created_at := now
                    completed_at := none
                    model_hash := model_hash
                    input_hash := hash_tensor input_vector
                    output_hash := hash_tensor raw_output
                    raw_output := raw_output
                    predicted_class := predictedClass raw_output
                    label := predictedLabel model_desc.labels (predictedClass raw_output)
                    proof_hash := none
                    proof_size := none
                    prove_time_ms := none
                    verify_time_ms := none
                    error := none }

/-! ## `src/handlers/upload.rs` — `upload_model` -/

/-- The multipart form after the field loop (defaults already applied:
`input_dim = 0`, `labels = []`, `trace_length = 1 <<< 14` when the
fields are absent or unparsable). -/
structure UploadForm where
  onnx_bytes : Option (List Nat)
  name : Option String
  description : String
  input_dim : Nat
  labels : List String
  trace_length : Nat
deriving DecidableEq, Repr

/-- Outcome of the external `model(&path)` load-validation call run
under `spawn_blocking` + `catch_unwind`. -/
inductive LoadResult
  | ok
  | panicked
  | joinError
deriving DecidableEq, Repr

/-- Outcome of the external `Snark::prover_preprocess` call spawned in
the background after registration. -/
inductive PreprocessResult
  | ok
  | panicked
  | joinError
deriving DecidableEq, Repr

inductive UploadErr
  | badRequest (msg : String)
  | payloadTooLarge (msg : String)
deriving DecidableEq, Repr

/-- The admission state `upload_model` leaves behind for the new model:
whether the artifact directory still exists on disk, whether the
descriptor is registered in the registry, and whether the
preprocessing-cache entry was inserted. -/
structure AdmissionState where
  dirExists : Bool
  registered : Bool
  cached : Bool
deriving DecidableEq, Repr

/-- `upload_model` (`upload.rs` lines 21-266), as a function of the
parsed form and the two external outcomes (load validation and
background preprocessing); filesystem writes are assumed to succeed.
Returns the response (or error) together with the admission state after
the background task finishes.  The directory is created only after the
form checks pass; the magic-byte and load-validation failures remove it
again; a failure or panic of the background preprocessing task is only
logged (lines 252-258) — nothing is rolled back. -/
def upload_model (form : UploadForm) (load : LoadResult) (pre : PreprocessResult) :
    Except UploadErr String × AdmissionState :=
  match form.onnx_bytes with
  | none => (.error (.badRequest "Missing onnx_file field"), ⟨false, false, false⟩)
  | some bytes =>
    if 5 * 1024 * 1024 < bytes.length then
      (.error (.payloadTooLarge "ONNX file exceeds 5MB limit"), ⟨false, false, false⟩)
    else
      match form.name with
      | none => (.error (.badRequest "Missing name field"), ⟨false, false, false⟩)
      | some _ =>
        if form.input_dim = 0 then
          (.error (.badRequest "input_dim must be > 0"), ⟨false, false, false⟩)
        else if form.labels.isEmpty then
          (.error (.badRequest "labels must be a non-empty JSON array"), ⟨false, false, false⟩)
        else
          -- create_dir_all + fs::write: the directory exists from here on.
          if bytes.length < 2 ∨ bytes.getD 0 0 ≠ 0x08 then
            -- remove_dir_all, then BadRequest (lines 156-165)
            (.error (.badRequest "File does not appear to be an ONNX model"),
              ⟨false, false, false⟩)
          else
            match load with
            | .panicked =>
              (.error (.badRequest "Invalid ONNX model - failed to load"),
                ⟨false, false, false⟩)
            | .joinError =>
              (.error (.badRequest "Invalid ONNX model - failed to load"),
                ⟨false, false, false⟩)
            | .ok =>
              -- model.toml written, descriptor registered (lines 190-224),
              -- background preprocessing spawned (lines 226-259).
              match pre with
              | .ok => (.ok "preprocessing", ⟨true, true, true⟩)
              | .panicked => (.ok "preprocessing", ⟨true, true, false⟩)
              | .joinError => (.ok "preprocessing", ⟨true, true, false⟩)

/-! ## `src/prover.rs` — `prove_and_verify` and `fire_webhook` -/

/-- Where the background prover's run ends.  `Snark::prove` itself has
no error path in the source (a panic there would abort the blocking
task without any receipt update, never reaching a terminal state, so it
is outside the terminal-state claims). -/
inductive ProverOutcome
  | noPreprocessing
  | proofSerializeFailed
  | ioSerializeFailed
  | snarkDeserializeFailed
  | ioDeserializeFailed
  | verifyFailed
  | verified
deriving DecidableEq, Repr

/-- The receipt mutation `prove_and_verify` applies through
`receipt_store.update` on each terminal path (`prover.rs` lines
34-184).  `proof_hash`/`proof_size`/`prove_ms`/`verify_ms` are the
values measured on the successful path; `now` is the clock at the
update. -/
def applyProverOutcome (r : ReceiptM) (outcome : ProverOutcome)
    (proof_hash : String) (proof_size prove_ms verify_ms : Nat) (now : Int) : ReceiptM :=
  match outcome with
  | .noPreprocessing =>
    { r with status := .failed, error := some "No preprocessing available",
             completed_at := some now }
  | .proofSerializeFailed =>
    { r with status := .failed, error := some "Proof generation failed",
             completed_at := some now }
  | .ioSerializeFailed =>
    { r with status := .failed, error := some "Proof generation failed",
             completed_at := some now }
  | .snarkDeserializeFailed =>
    { r with status := .failed, error := some "Proof verification failed",
             completed_at := some now }
  | .ioDeserializeFailed =>
    { r with status := .failed, error := some "Proof verification failed",
             completed_at := some now }
  | .verifyFailed =>
    { r with status := .failed, error := some "Proof verification failed",
             completed_at := some now }
  | .verified =>
    { r with status := .verified, proof_hash := some proof_hash,
             proof_size := some proof_size, prove_time_ms := some prove_ms,
             verify_time_ms := some verify_ms, completed_at := some now }

/-- Whether `prove_and_verify` calls `fire_webhook` for a given outcome:
only the two arms of the final `verify` match (lines 166-183) fire it;
every earlier failure path returns without it. -/
def webhookCalled (outcome : ProverOutcome) (webhook_url : Option String) : Bool :=
  webhook_url.isSome &&
    (outcome = ProverOutcome.verified || outcome = ProverOutcome.verifyFailed)

/-- Number of POSTs issued by `fire_webhook` (lines 188-213): none when
the receipt is not found in the store; otherwise one attempt, plus
exactly one retry after the 5-second backoff when the first attempt
returns a network error. -/
def fireWebhookPosts (receiptFound : Bool) (firstAttemptFails : Bool) : Nat :=
  if receiptFound then (if firstAttemptFails then 2 else 1) else 0

/-- Total POSTs for one prover run: `fire_webhook` runs only when
`webhookCalled`; the receipt was just updated through the store, so it
is found in the hot cache. -/
def proverWebhookPosts (outcome : ProverOutcome) (webhook_url : Option String)
    (firstAttemptFails : Bool) : Nat :=
  if webhookCalled outcome webhook_url then fireWebhookPosts true firstAttemptFails
  else 0

/-- A receipt used by concrete instances below: fresh, in `Proving`
state, created at time `t`. -/
def sampleReceipt (t : Int) : ReceiptM :=
  { id := "r1"
    model_id := "authorization"
    model_name := "Transaction Authorization"
    status := .proving
    created_at := t
    completed_at := none
    model_hash := "0xmh"
    input_hash := "0xih"
    output_hash := "0xoh"
    raw_output := [3, 1]
    predicted_class := 0
    label := "AUTHORIZED"
    proof_hash := none
    proof_size := none
    prove_time_ms := none
    verify_time_ms := none
    error := none }

/-- A manifest with the recognized tag `"raw"` but violating every
other condition of the spec's manifest-loading contract: zero input
dimension, no labels, and a trace length that is not a power of two. -/
def badManifest : ModelToml :=
  { id := "bad"
    name := "Bad"
    description := ""
    input_type := "raw"
    input_dim := 0
    input_shape := []
    labels := []
    trace_length := 3
    fields := [] }

/-- A field schema with a non-trivial lower bound. -/
def minSchema : FieldSchema :=
  { name := "trust", description := "Trust score", min := 2, max := 7 }

/-- A registered structured-fields model whose only field has
`min = 2`. -/
def descWithMin : ModelDescriptor :=
  { id := "m3"
    name := "M3"
    description := ""
    input_type := .structuredFields
    input_dim := 2
    input_shape := [1, 2]
    labels := ["A", "B"]
    trace_length := 16384
    fields := some [minSchema]
    model_hash := some "0xcached" }

/-- Server state hosting `descWithMin`, preprocessed, with a one-hot
vocabulary for its field. -/
def stWithMin : ServerState :=
  { registry := [("m3", descWithMin)]
    preprocessing := ["m3"]
    vocabs := [("m3", .onehot [("trust_1", 0), ("trust_3", 1)])] }

/-- An empty server state: no models registered. -/
def stEmpty : ServerState :=
  { registry := [], preprocessing := [], vocabs := [] }

/-- A well-formed upload form: protobuf-tagged artifact under the size
cap, with name, labels and a positive input dimension. -/
def goodForm : UploadForm :=
  { onnx_bytes := some [0x08, 0x01, 0x02]
    name := some "My Model"
    description := ""
    input_dim := 4
    labels := ["a", "b"]
    trace_length := 16384 }

/-! # Theorems -/

/-! ## Hashing lemmas -/

lemma bytesToHex_length (l : List Nat) : (bytesToHex l).length = 2 * l.length := by
  induction l with
  | nil => rfl
  | cons b rest ih => simp only [bytesToHex, List.length_cons, ih]; omega

lemma keccak256Bytes_length (msg : List Nat) : (keccak256Bytes msg).length = 32 := by
  simp [keccak256Bytes]

lemma keccak256_length (data : List Nat) : (keccak256 data).length = 66 := by
  show (String.mk ('0' :: 'x' :: bytesToHex (keccak256Bytes data))).length = 66
  have h : (String.mk ('0' :: 'x' :: bytesToHex (keccak256Bytes data))).length
      = ('0' :: 'x' :: bytesToHex (keccak256Bytes data)).length := rfl
  rw [h]
  simp [bytesToHex_length, keccak256Bytes_length]

/-- Claim C7: `hash_tensor` is `keccak256` of the concatenated signed
32-bit little-endian encodings of the elements; the result always has
length 66 (`"0x"` plus 64 hex characters of the 32-byte digest); and
the function is pure and deterministic, so equal contents give equal
hashes. -/
theorem c7_hash_tensor_contract (l : List Int) :
    hash_tensor l = keccak256 (l.flatMap i32ToLeBytes) ∧
    (hash_tensor l).length = 66 ∧
    ∀ l2 : List Int, l = l2 → hash_tensor l = hash_tensor l2 := by
  refine ⟨rfl, ?_, ?_⟩
  · show (keccak256 (l.flatMap i32ToLeBytes)).length = 66
    exact keccak256_length _
  · intro l2 h
    rw [h]

/-- Witness for C7 at the concrete tensor `[1, -2, 3]`. -/
theorem c7_witness :
    hash_tensor [(1 : Int), -2, 3] = keccak256 ([(1 : Int), -2, 3].flatMap i32ToLeBytes) ∧
    (hash_tensor [(1 : Int), -2, 3]).length = 66 ∧
    hash_tensor [(1 : Int), -2, 3] = hash_tensor [(1 : Int), -2, 3] := by
  obtain ⟨h1, h2, h3⟩ := c7_hash_tensor_contract [(1 : Int), -2, 3]
  exact ⟨h1, h2, h3 [(1 : Int), -2, 3] rfl⟩

/-! ## Claim C10 -/

/-- Claim C10: `ReceiptStatus` string conversion round-trips on all
three statuses, and `from_str` maps every string other than
`"verified"` and `"failed"` — corrupted durable values included — to
`Proving`. -/
theorem c10_status_string_roundtrip :
    (∀ s : ReceiptStatus, ReceiptStatus.from_str s.as_str = s) ∧
    ∀ str : String, str ≠ "verified" → str ≠ "failed" →
      ReceiptStatus.from_str str = .proving := by
  constructor
  · intro s
    cases s <;> decide
  · intro str h1 h2
    simp [ReceiptStatus.from_str, h1, h2]

/-- Witness for C10 on a corrupted stored status string. -/
theorem c10_witness : ReceiptStatus.from_str "corrupted#status" = .proving :=
  c10_status_string_roundtrip.2 "corrupted#status" (by decide) (by decide)

/-! ## Claim C9 -/

/-- Counterexample to C9 as stated: with `now = 100` and
`max_age = 10`, a hot entry created at time 90 has age exactly
`max_age` — it is not older than `max_age` — yet `cleanup_cache`
evicts it, because the source retains only `created_at > cutoff`. -/
theorem c9_counterexample :
    ¬ ((100 : Int) - (sampleReceipt 90).created_at > 10) ∧
    (cleanup_cache 100 10
      ⟨[("r1", sampleReceipt 90)], [("r1", sampleReceipt 90)]⟩).cache = [] := by
  constructor
  · decide
  · rfl

/-- Claim C9 amended: `cleanup_cache now max_age` removes exactly the
hot entries with `created_at ≤ now - max_age` (age at least `max_age`;
the boundary entry with age exactly `max_age` is also evicted), keeps
every strictly younger hot entry, and leaves the durable rows
untouched. -/
theorem c9_cleanup_exact (now max_age : Int) (store : ReceiptStoreM) :
    (cleanup_cache now max_age store).db = store.db ∧
    ∀ p : String × ReceiptM,
      p ∈ (cleanup_cache now max_age store).cache ↔
        (p ∈ store.cache ∧ now - max_age < p.2.created_at) := by
  constructor
  · rfl
  · intro p
    simp [cleanup_cache, List.mem_filter]

/-! ## Claim C1: the `max_by` fold -/

lemma maxByStep_cases (q p : Nat × Int) : maxByStep q p = q ∨ maxByStep q p = p := by
  unfold maxByStep
  split
  · exact Or.inl rfl
  · exact Or.inr rfl

lemma maxByStep_le_left (q p : Nat × Int) : q.2 ≤ (maxByStep q p).2 := by
  unfold maxByStep
  split <;> omega

lemma maxByStep_le_right (q p : Nat × Int) : p.2 ≤ (maxByStep q p).2 := by
  unfold maxByStep
  split <;> omega

lemma maxByGo_eq_or_mem : ∀ (l : List (Nat × Int)) (q : Nat × Int),
    maxByGo q l = q ∨ maxByGo q l ∈ l := by
  intro l
  induction l with
  | nil => intro q; exact Or.inl rfl
  | cons p l ih =>
    intro q
    show maxByGo (maxByStep q p) l = q ∨ maxByGo (maxByStep q p) l ∈ p :: l
    rcases ih (maxByStep q p) with h | h
    · rcases maxByStep_cases q p with hs | hs
      · exact Or.inl (h.trans hs)
      · refine Or.inr ?_
        rw [h.trans hs]
        exact List.mem_cons_self p l
    · exact Or.inr (List.mem_cons_of_mem p h)

lemma maxByGo_le : ∀ (l : List (Nat × Int)) (q : Nat × Int),
    q.2 ≤ (maxByGo q l).2 := by
  intro l
  induction l with
  | nil => intro q; exact le_refl _
  | cons p l ih =>
    intro q
    show q.2 ≤ (maxByGo (maxByStep q p) l).2
    exact le_trans (maxByStep_le_left q p) (ih (maxByStep q p))

lemma maxByGo_mem_le : ∀ (l : List (Nat × Int)) (q p : Nat × Int),
    p ∈ l → p.2 ≤ (maxByGo q l).2 := by
  intro l
  induction l with
  | nil => intro q p h; exact absurd h (List.not_mem_nil p)
  | cons p0 l ih =>
    intro q p h
    show p.2 ≤ (maxByGo (maxByStep q p0) l).2
    rcases List.mem_cons.mp h with heq | h2
    · subst heq
      exact le_trans (maxByStep_le_right q p) (maxByGo_le l (maxByStep q p))
    · exact ih (maxByStep q p0) p h2

/-- The decisive lemma behind the tie-breaking direction: along a list
of pairs with strictly increasing indices, all larger than the
accumulator's index, every pair whose index exceeds the fold result's
index has a strictly smaller value — later elements win ties, so the
result is the last maximum. -/
lemma maxByGo_later_lt : ∀ (l : List (Nat × Int)) (q : Nat × Int),
    (∀ p ∈ l, q.1 < p.1) → List.Pairwise (fun a b => a.1 < b.1) l →
    ∀ p : Nat × Int, (p = q ∨ p ∈ l) → (maxByGo q l).1 < p.1 →
      p.2 < (maxByGo q l).2 := by
  intro l
  induction l with
  | nil =>
    intro q _ _ p hp hlt
    rcases hp with heq | h
    · subst heq; exact absurd hlt (lt_irrefl _)
    · exact absurd h (List.not_mem_nil p)
  | cons p0 l ih =>
    intro q hgt hpw p hp hlt
    have hpwt := (List.pairwise_cons.mp hpw).2
    have hp0l := (List.pairwise_cons.mp hpw).1
    by_cases hc : p0.2 < q.2
    · have hstep : maxByStep q p0 = q := by unfold maxByStep; rw [if_pos hc]
      have hgo : maxByGo q (p0 :: l) = maxByGo q l := by
        show maxByGo (maxByStep q p0) l = maxByGo q l
        rw [hstep]
      rw [hgo] at hlt ⊢
      have hgt' : ∀ r ∈ l, q.1 < r.1 := fun r hr => hgt r (List.mem_cons_of_mem p0 hr)
      rcases hp with heq | hp2
      · exact ih q hgt' hpwt p (Or.inl heq) hlt
      · rcases List.mem_cons.mp hp2 with heq | hp3
        · subst heq
          exact lt_of_lt_of_le hc (maxByGo_le l q)
        · exact ih q hgt' hpwt p (Or.inr hp3) hlt
    · have hstep : maxByStep q p0 = p0 := by unfold maxByStep; rw [if_neg hc]
      have hgo : maxByGo q (p0 :: l) = maxByGo p0 l := by
        show maxByGo (maxByStep q p0) l = maxByGo p0 l
        rw [hstep]
      rw [hgo] at hlt ⊢
      rcases hp with heq | hp2
      · subst heq
        exfalso
        rcases maxByGo_eq_or_mem l p0 with he | hm
        · rw [he] at hlt
          have := hgt p0 (List.mem_cons_self p0 l)
          omega
        · have := hgt (maxByGo p0 l) (List.mem_cons_of_mem p0 hm)
          omega
      · rcases List.mem_cons.mp hp2 with heq | hp3
        · exact ih p0 hp0l hpwt p (Or.inl heq) hlt
        · exact ih p0 hp0l hpwt p (Or.inr hp3) hlt

lemma enumFromN_mem {α : Type} : ∀ (xs : List α) (i : Nat) (p : Nat × α) (d : α),
    p ∈ enumFromN i xs →
    i ≤ p.1 ∧ p.1 - i < xs.length ∧ p.2 = xs.getD (p.1 - i) d := by
  intro xs
  induction xs with
  | nil => intro i p d h; exact absurd h (List.not_mem_nil p)
  | cons x xs ih =>
    intro i p d h
    rcases List.mem_cons.mp h with heq | h2
    · subst heq
      refine ⟨le_refl i, by simp, ?_⟩
      simp
    · obtain ⟨h1, h2', h3⟩ := ih (i + 1) p d h2
      refine ⟨by omega, by simp; omega, ?_⟩
      have hs : p.1 - i = (p.1 - (i + 1)) + 1 := by omega
      rw [hs, List.getD_cons_succ]
      exact h3

lemma enumFromN_mem_of {α : Type} : ∀ (xs : List α) (i k : Nat) (d : α),
    k < xs.length → (i + k, xs.getD k d) ∈ enumFromN i xs := by
  intro xs
  induction xs with
  | nil => intro i k d h; simp at h
  | cons x xs ih =>
    intro i k d h
    cases k with
    | zero => simp [enumFromN]
    | succ k =>
      have hk : k < xs.length := by simp at h; omega
      have := ih (i + 1) k d hk
      have harith : i + (k + 1) = (i + 1) + k := by omega
      rw [harith, List.getD_cons_succ]
      exact List.mem_cons_of_mem _ this

lemma enumFromN_pairwise {α : Type} : ∀ (xs : List α) (i : Nat),
    List.Pairwise (fun a b : Nat × α => a.1 < b.1) (enumFromN i xs) := by
  intro xs
  induction xs with
  | nil => intro i; exact List.Pairwise.nil
  | cons x xs ih =>
    intro i
    refine List.pairwise_cons.mpr ⟨?_, ih (i + 1)⟩
    intro p hp
    have := (enumFromN_mem xs (i + 1) p x hp).1
    show i < p.1
    omega

/-- Counterexample to C1 as stated: on the tied output `[5, 5]` the
lowest maximal index is 0, but the handler's
`max_by`-based `pred_idx` returns 1 — Rust's `max_by` keeps the last
of several equal maxima. -/
theorem c1_counterexample :
    (∀ i, i < 2 → List.getD [(5 : Int), 5] i 0 ≤ List.getD [(5 : Int), 5] 0 0) ∧
    predictedClass [(5 : Int), 5] ≠ 0 ∧ predictedClass [(5 : Int), 5] = 1 := by
  refine ⟨?_, by decide, by decide⟩
  decide

/-- Claim C1 amended: for a non-empty `raw_output`, `predicted_class`
is an index of a maximum element of `raw_output`, and when several
elements are tied for the maximum it is the highest (last) such index,
not the lowest. -/
theorem c1_pred_is_last_argmax (raw : List Int) (h : raw ≠ []) :
    predictedClass raw < raw.length ∧
    (∀ i, i < raw.length →
      raw.getD i 0 ≤ raw.getD (predictedClass raw) 0) ∧
    (∀ j, j < raw.length → predictedClass raw < j →
      raw.getD j 0 < raw.getD (predictedClass raw) 0) := by
  cases raw with
  | nil => exact absurd rfl h
  | cons x xs =>
    have hpc : predictedClass (x :: xs) = (maxByGo (0, x) (enumFromN 1 xs)).1 := by
      simp [predictedClass, enumFromN, iterMaxBy]
    have hidx : (maxByGo (0, x) (enumFromN 1 xs)).1 < xs.length + 1 ∧
        (maxByGo (0, x) (enumFromN 1 xs)).2 =
          (x :: xs).getD (maxByGo (0, x) (enumFromN 1 xs)).1 0 := by
      rcases maxByGo_eq_or_mem (enumFromN 1 xs) (0, x) with he | hm
      · rw [he]; exact ⟨Nat.succ_pos _, rfl⟩
      · obtain ⟨h1, h2, h3⟩ := enumFromN_mem xs 1 (maxByGo (0, x) (enumFromN 1 xs)) 0 hm
        refine ⟨by omega, ?_⟩
        have hs : (maxByGo (0, x) (enumFromN 1 xs)).1 =
            ((maxByGo (0, x) (enumFromN 1 xs)).1 - 1) + 1 := by omega
        rw [hs, List.getD_cons_succ]
        exact h3
    have hdom : ∀ i, i < xs.length + 1 →
        (x :: xs).getD i 0 ≤ (maxByGo (0, x) (enumFromN 1 xs)).2 := by
      intro i hi
      cases i with
      | zero =>
        simpa using maxByGo_le (enumFromN 1 xs) (0, x)
      | succ k =>
        have hk : k < xs.length := by omega
        have hmem2 := enumFromN_mem_of xs 1 k 0 hk
        have := maxByGo_mem_le (enumFromN 1 xs) (0, x) (1 + k, xs.getD k 0) hmem2
        simpa using this
    have hstrict : ∀ j, j < xs.length + 1 →
        (maxByGo (0, x) (enumFromN 1 xs)).1 < j →
        (x :: xs).getD j 0 < (maxByGo (0, x) (enumFromN 1 xs)).2 := by
      intro j hj hlt
      cases j with
      | zero => omega
      | succ k =>
        have hk : k < xs.length := by omega
        have hmem2 := enumFromN_mem_of xs 1 k 0 hk
        have hgt : ∀ p ∈ enumFromN 1 xs, (0, x).1 < p.1 := by
          intro p hp
          have := (enumFromN_mem xs 1 p 0 hp).1
          show 0 < p.1
          omega
        have := maxByGo_later_lt (enumFromN 1 xs) (0, x) hgt
          (enumFromN_pairwise xs 1) (1 + k, xs.getD k 0) (Or.inr hmem2)
          (by simp; omega)
        simpa using this
    refine ⟨?_, ?_, ?_⟩
    · rw [hpc]
      simpa using hidx.1
    · intro i hi
      rw [hpc, ← hidx.2]
      exact hdom i (by simpa using hi)
    · intro j hj hlt
      rw [hpc, ← hidx.2]
      exact hstrict j (by simpa using hj) (by rwa [hpc] at hlt)

/-- Witness for the amended C1 on `[3, 7, 7, 2]`, whose maximum 7 is
tied at indices 1 and 2 and where `predicted_class = 2`. -/
theorem c1_witness :
    ([(3 : Int), 7, 7, 2] ≠ []) ∧
    (predictedClass [(3 : Int), 7, 7, 2] < List.length [(3 : Int), 7, 7, 2] ∧
     (∀ i, i < List.length [(3 : Int), 7, 7, 2] →
       List.getD [(3 : Int), 7, 7, 2] i 0 ≤
         List.getD [(3 : Int), 7, 7, 2] (predictedClass [(3 : Int), 7, 7, 2]) 0) ∧
     (∀ j, j < List.length [(3 : Int), 7, 7, 2] →
       predictedClass [(3 : Int), 7, 7, 2] < j →
       List.getD [(3 : Int), 7, 7, 2] j 0 <
         List.getD [(3 : Int), 7, 7, 2] (predictedClass [(3 : Int), 7, 7, 2]) 0)) :=
  ⟨by decide, c1_pred_is_last_argmax [(3 : Int), 7, 7, 2] (by decide)⟩

/-! ## Claim C2 -/

/-- Counterexample to C2 as stated: `load_from_toml` accepts a manifest
with `input_dim = 0`, empty `labels` and a non-power-of-two
`trace_length`, as long as the `input_kind` tag is recognized — the
claimed validations are not performed. -/
theorem c2_counterexample :
    (load_from_toml badManifest).isSome = true ∧
    badManifest.input_dim = 0 ∧
    badManifest.labels = [] ∧
    badManifest.trace_length = 3 := by
  refine ⟨rfl, rfl, rfl, rfl⟩

/-- Claim C2 amended: on a parsed manifest, `load_from_toml` produces a
descriptor if and only if the `input_kind` tag is one of the three
recognized tags; `input_dim`, `labels`, `trace_length` and the field
bounds are not validated. -/
theorem c2_load_checks_only_tag (t : ModelToml) :
    (load_from_toml t).isSome = true ↔
      (t.input_type = "text" ∨ t.input_type = "structured_fields" ∨
        t.input_type = "raw") := by
  unfold load_from_toml parseInputType
  by_cases h1 : t.input_type = "text"
  · simp [h1]
  · by_cases h2 : t.input_type = "structured_fields"
    · simp [h1, h2]
    · by_cases h3 : t.input_type = "raw"
      · simp [h1, h2, h3]
      · simp [h1, h2, h3]

/-! ## Claim C3 -/

/-- Claim C3, evaluated at the failing input: the structured-fields
validation of `run_single_prove` checks only `value > max` and never
consults the schema's `min`.  Supplying `trust = 1` against a schema
with `min = 2` passes validation, and the full handler runs to
completion and creates a receipt instead of returning BadRequest. -/
theorem c3_below_min_not_rejected :
    structuredFieldError [minSchema] [("trust", 1)] = none ∧
    1 < minSchema.min ∧
    ∃ r : ReceiptM,
      run_single_prove stWithMin "m3" ⟨none, some [("trust", 1)], none⟩ none
        (fun _ => .ok [1, 0]) none "rid" 0 = .ok r := by
  refine ⟨rfl, by decide, ⟨_, rfl⟩⟩

/-! ## Claim C6 -/

/-- Counterexample to C6 as stated: the webhook scheme is validated
before the descriptor is resolved, so a request naming an unknown model
together with a non-HTTPS webhook fails with BadRequest, not
NotFound. -/
theorem c6_counterexample :
    alistGet stEmpty.registry "nope" = none ∧
    run_single_prove stEmpty "nope" ⟨none, none, none⟩
        (some "http://insecure.example/hook") (fun _ => .ok []) none "rid" 0 =
      .error (.badRequest "webhook_url must use HTTPS") := by
  refine ⟨rfl, ?_⟩
  rfl

/-- Claim C6 amended: webhook validation runs first; for every request
whose webhook URL is absent or already uses the `https://` scheme, an
unknown `model_id` yields NotFound (and the handler returns before any
receipt is created). -/
theorem c6_notfound_after_webhook (st : ServerState) (model_id : String)
    (input : ProveInput) (webhook_url : Option String)
    (inference : List Int → InferenceResult) (artifact : Option (List Nat))
    (receipt_id : String) (now : Int)
    (hw : webhook_url = none ∨
      ∃ u, webhook_url = some u ∧ startsWithHttps u = true)
    (hm : alistGet st.registry model_id = none) :
    run_single_prove st model_id input webhook_url inference artifact receipt_id now =
      .error (.notFound ("Model not found: " ++ model_id)) := by
  unfold run_single_prove
  rcases hw with rfl | ⟨u, rfl, hu⟩
  · simp [hm]
  · simp [hu, hm]

/-- Witness for the amended C6: empty registry, HTTPS webhook. -/
theorem c6_witness :
    run_single_prove stEmpty "nope" ⟨none, none, none⟩
        (some "https://hooks.example/h") (fun _ => .ok []) none "rid" 0 =
      .error (.notFound ("Model not found: " ++ "nope")) :=
  c6_notfound_after_webhook stEmpty "nope" ⟨none, none, none⟩
    (some "https://hooks.example/h") (fun _ => .ok []) none "rid" 0
    (Or.inr ⟨"https://hooks.example/h", rfl, by rfl⟩) rfl

/-! ## Claim C4 -/

/-- Counterexample to C4 as stated: when the background preprocessing
task panics after a successful load validation, `upload_model` has
already registered the descriptor and keeps the artifact directory —
the failure is only logged (lines 252-258), so admission is not atomic
across the background step. -/
theorem c4_counterexample :
    (upload_model goodForm .ok .panicked).1 = .ok "preprocessing" ∧
    (upload_model goodForm .ok .panicked).2.dirExists = true ∧
    (upload_model goodForm .ok .panicked).2.registered = true ∧
    (upload_model goodForm .ok .panicked).2.cached = false := by
  refine ⟨rfl, rfl, rfl, rfl⟩

/-- Claim C4 amended: admission is atomic only through load
validation — every error response leaves no artifact directory and no
registration — while a failure or panic of the background preprocessing
step leaves the artifact directory and the registered descriptor in
place and merely omits the preprocessing-cache entry. -/
theorem c4_admission_rollback (form : UploadForm) (load : LoadResult)
    (pre : PreprocessResult) :
    (∀ e, (upload_model form load pre).1 = .error e →
      (upload_model form load pre).2 = ⟨false, false, false⟩) ∧
    (∀ s, (upload_model form load pre).1 = .ok s →
      (upload_model form load pre).2.dirExists = true ∧
      (upload_model form load pre).2.registered = true ∧
      ((upload_model form load pre).2.cached = true ↔ pre = .ok)) := by
  unfold upload_model
  cases form.onnx_bytes with
  | none => simp
  | some bytes =>
    cases load <;> cases pre <;> (repeat' split) <;> simp_all

/-- Witness for the amended C4: a valid form with a panicking
preprocessing step keeps the registration and the directory. -/
theorem c4_witness :
    (upload_model goodForm .ok .panicked).2.dirExists = true ∧
    (upload_model goodForm .ok .panicked).2.registered = true ∧
    ((upload_model goodForm .ok .panicked).2.cached = true ↔
      PreprocessResult.panicked = .ok) :=
  (c4_admission_rollback goodForm .ok .panicked).2 "preprocessing" rfl

/-! ## Claim C5 -/

/-- Counterexample to C5 as stated: a proof-serialization failure
drives the receipt to the terminal Failed state, yet with a webhook URL
supplied the prover fires zero POSTs — `fire_webhook` is reached only
from the two arms of the final verify match. -/
theorem c5_counterexample :
    (applyProverOutcome (sampleReceipt 0) .proofSerializeFailed "" 0 0 0 5).status
      = .failed ∧
    proverWebhookPosts .proofSerializeFailed (some "https://h.example/w") false = 0 := by
  refine ⟨rfl, rfl⟩

/-- Claim C5 amended: the webhook fires exactly when a webhook URL was
supplied and the prover's terminal state was reached through the verify
step (Verified, or Failed on verification error); the earlier failure
paths fire nothing.  When it fires there is one POST, with exactly one
retry after the backoff when the first attempt hits a network error —
never more than two POSTs. -/
theorem c5_webhook_fires_from_verify_arms (outcome : ProverOutcome)
    (webhook_url : Option String) (firstFails : Bool) :
    (1 ≤ proverWebhookPosts outcome webhook_url firstFails ↔
      (webhook_url.isSome = true ∧
        (outcome = .verified ∨ outcome = .verifyFailed))) ∧
    proverWebhookPosts outcome webhook_url firstFails ≤ 2 ∧
    (proverWebhookPosts outcome webhook_url firstFails = 2 → firstFails = true) := by
  cases webhook_url <;> cases outcome <;> cases firstFails <;>
    simp [proverWebhookPosts, webhookCalled, fireWebhookPosts]

/-- Witness for the amended C5: verified outcome, webhook present,
first attempt failing — two POSTs, the second being the single retry. -/
theorem c5_witness :
    1 ≤ proverWebhookPosts .verified (some "https://h.example/w") true ∧
    proverWebhookPosts .verified (some "https://h.example/w") true ≤ 2 ∧
    (true : Bool) = true := by
  obtain ⟨h1, h2, h3⟩ :=
    c5_webhook_fires_from_verify_arms .verified (some "https://h.example/w") true
  exact ⟨h1.mpr ⟨rfl, Or.inl rfl⟩, h2, h3 rfl⟩

/-! ## Claim C8 -/

/-- Claim C8: every terminal update the background prover applies sets
`completed_at` to the update-time clock, which under clock monotonicity
is at least `created_at`; Verified receipts carry a proof hash and
Failed receipts carry an error message; and every prover outcome leaves
the receipt in a terminal state. -/
theorem c8_terminal_receipt_invariants (r : ReceiptM) (outcome : ProverOutcome)
    (ph : String) (psize pms vms : Nat) (now : Int)
    (hmono : r.created_at ≤ now) :
    (applyProverOutcome r outcome ph psize pms vms now).completed_at = some now ∧
    (∀ t, (applyProverOutcome r outcome ph psize pms vms now).completed_at = some t →
      (applyProverOutcome r outcome ph psize pms vms now).created_at ≤ t) ∧
    ((applyProverOutcome r outcome ph psize pms vms now).status = .verified ∨
      (applyProverOutcome r outcome ph psize pms vms now).status = .failed) ∧
    ((applyProverOutcome r outcome ph psize pms vms now).status = .verified →
      (applyProverOutcome r outcome ph psize pms vms now).proof_hash.isSome = true) ∧
    ((applyProverOutcome r outcome ph psize pms vms now).status = .failed →
      (applyProverOutcome r outcome ph psize pms vms now).error.isSome = true) := by
  cases outcome <;> simp [applyProverOutcome] <;> omega

/-- Witness for C8: a receipt created at time 5, verified at time 10. -/
theorem c8_witness :
    (applyProverOutcome (sampleReceipt 5) .verified "0xp" 9 100 4 10).completed_at
      = some 10 ∧
    (∀ t, (applyProverOutcome (sampleReceipt 5) .verified "0xp" 9 100 4 10).completed_at
        = some t →
      (applyProverOutcome (sampleReceipt 5) .verified "0xp" 9 100 4 10).created_at ≤ t) ∧
    ((applyProverOutcome (sampleReceipt 5) .verified "0xp" 9 100 4 10).status = .verified ∨
      (applyProverOutcome (sampleReceipt 5) .verified "0xp" 9 100 4 10).status = .failed) ∧
    ((applyProverOutcome (sampleReceipt 5) .verified "0xp" 9 100 4 10).status = .verified →
      (applyProverOutcome (sampleReceipt 5) .verified "0xp" 9 100 4 10).proof_hash.isSome
        = true) ∧
    ((applyProverOutcome (sampleReceipt 5) .verified "0xp" 9 100 4 10).status = .failed →
      (applyProverOutcome (sampleReceipt 5) .verified "0xp" 9 100 4 10).error.isSome
        = true) :=
  c8_terminal_receipt_invariants (sampleReceipt 5) .verified "0xp" 9 100 4 10 (by decide)

end Clawproof
